import Mathlib

/-!
Verification of the travel-investment-bot selection pipeline
(`src/webscrapercode.py`).

Python values are shallowly embedded as the inductive type `PyVal`
(numbers, strings, lists, dicts).  Python floats are modelled as exact
rationals: every concrete amount appearing in the claims ("1500000.0",
"999999.9") has the same truncation/rounding behaviour for the binary
float and for the exact decimal, so the modelled results coincide with
the program on these inputs.  Network calls (`http_get`) are modelled
by passing the decoded response value, or a lookup oracle, as an
explicit argument.  Each Lean definition carries the name of the Python
function it embeds.
-/

/-- A Python value, as the program manipulates them: `None`, booleans,
ints, floats (modelled as exact rationals), strings, lists and dicts
(association lists keyed by strings). -/
inductive PyVal where
  | none
  | bool (b : Bool)
  | int (n : Int)
  | float (q : ℚ)
  | str (s : String)
  | list (xs : List PyVal)
  | dict (kvs : List (String × PyVal))

/-- Python truthiness (`bool(v)`): `None`, `False`, zero, the empty
string, the empty list and the empty dict are falsy. -/
def pyTruthy : PyVal → Bool
  | .none => false
  | .bool b => b
  | .int n => n != 0
  | .float q => q != 0
  | .str s => s != ""
  | .list xs => !xs.isEmpty
  | .dict kvs => !kvs.isEmpty

/-- `d.get(k)`: dictionary lookup with `None` default.  On a non-dict
value Python raises `AttributeError`; the model returns `None` there,
and the one place the program can reach `.get` on a non-dict — the
sort-key evaluation in `fetch_recent_rounds` — routes those inputs to
its explicit exception path (see `fetch_recent_rounds_items`) before
this total function's non-dict branch could matter. -/
def pyGet (d : PyVal) (k : String) : PyVal :=
  match d with
  | .dict kvs => (kvs.lookup k).getD PyVal.none
  | _ => PyVal.none

/-- Python `a or b`: `a` when `a` is truthy, otherwise `b`. -/
def pyOr (a b : PyVal) : PyVal :=
  if pyTruthy a then a else b

mutual
/-- Python `repr` on the embedded values.  Faithful for `None`,
booleans, ints and the container structure; strings are quoted without
escape processing, and floats are rendered through the rational
printer (an approximation of CPython float repr, unused by the claims). -/
def pyRepr : PyVal → String
  | .none => "None"
  | .bool true => "True"
  | .bool false => "False"
  | .int n => toString n
  | .float q => toString q
  | .str s => "\x27" ++ s ++ "\x27"
  | .list xs => "[" ++ pyReprList xs ++ "]"
  | .dict kvs => "\x7b" ++ pyReprDict kvs ++ "\x7d"

/-- Comma-separated reprs of a list's elements. -/
def pyReprList : List PyVal → String
  | [] => ""
  | [x] => pyRepr x
  | x :: y :: rest => pyRepr x ++ ", " ++ pyReprList (y :: rest)

/-- Comma-separated `'key': value` reprs of a dict's entries. -/
def pyReprDict : List (String × PyVal) → String
  | [] => ""
  | [(k, v)] => "\x27" ++ k ++ "\x27: " ++ pyRepr v
  | (k, v) :: e :: rest => "\x27" ++ k ++ "\x27: " ++ pyRepr v ++ ", " ++ pyReprDict (e :: rest)
end

/-- Python `str(v)`: the value itself for strings, `repr`-style text
otherwise. -/
def pyStr : PyVal → String
  | .str s => s
  | v => pyRepr v

mutual
/-- Structural equality on embedded Python values (Python `==` /
set membership).  Faithful whenever the compared values are of the same
kind — in the program the deduplicated identifiers are strings —
cross-type numeric equality such as `1 == 1.0` is not modelled. -/
def pyBeq : PyVal → PyVal → Bool
  | .none, .none => true
  | .bool a, .bool b => a == b
  | .int a, .int b => a == b
  | .float a, .float b => a == b
  | .str a, .str b => a == b
  | .list xs, .list ys => pyBeqList xs ys
  | .dict xs, .dict ys => pyBeqDict xs ys
  | _, _ => false

/-- Elementwise `pyBeq` on lists. -/
def pyBeqList : List PyVal → List PyVal → Bool
  | [], [] => true
  | x :: xs, y :: ys => pyBeq x y && pyBeqList xs ys
  | _, _ => false

/-- Entrywise `pyBeq` on dict entry lists. -/
def pyBeqDict : List (String × PyVal) → List (String × PyVal) → Bool
  | [], [] => true
  | (k, v) :: xs, (l, w) :: ys => k == l && pyBeq v w && pyBeqDict xs ys
  | _, _ => false
end

/-- Python `v in l` over a list of embedded values, via `pyBeq`. -/
def pyMem (v : PyVal) (l : List PyVal) : Bool :=
  l.any (fun w => pyBeq v w)

/-- The per-item conversion inside `norm_list_to_strings`:
a string passes through, a dict yields `str(item.get("name") or
item.get("value") or item)`, anything else is stringified. -/
def normItem (item : PyVal) : String :=
  match item with
  | .str s => s
  | .dict _ => pyStr (pyOr (pyGet item "name") (pyOr (pyGet item "value") item))
  | v => pyStr v

/-- `norm_list_to_strings` (webscrapercode.py lines 88-108): coerces
`str | list[str] | list[dict] | other` to `list[str]`. -/
def norm_list_to_strings (val : PyVal) : List String :=
  if !pyTruthy val then []
  else
    match val with
    | .str s => [s]
    | .list items => items.map normItem
    | v => [pyStr v]

/-- Python `s.lower()`: ASCII per-character lowering (the program's
fields are ASCII; Unicode-specific lowering is not modelled). -/
def pyLower (s : String) : String :=
  String.mk (s.toList.map Char.toLower)

/-- `CRUNCHBASE_TRAVEL_LABEL` (webscrapercode.py line 20). -/
def CRUNCHBASE_TRAVEL_LABEL : String := "hospitality, travel and tourism"

/-- `TRAVEL_KEYWORDS` (webscrapercode.py lines 21-54).  The Python
value is a set literal of 23 distinct strings; membership order is
irrelevant to the program, so it is modelled as the literal list. -/
def TRAVEL_KEYWORDS : List String :=
  ["hospitality", "travel", "tourism",
   "hotel", "lodging", "resort", "vacation rental", "short term rental",
   "hostel", "bnb", "bed and breakfast",
   "ota", "booking", "expedia", "tripadvisor",
   "airline", "airport", "cruise", "ferry", "rideshare",
   "tour operator", "tourism board", "travel agency"]

/-- Substring search on character lists: does `needle` occur
contiguously inside `hay`?  Models Python `needle in hay` on strings. -/
def containsList (needle : List Char) : List Char → Bool
  | [] => needle.isEmpty
  | c :: rest => needle.isPrefixOf (c :: rest) || containsList needle rest

/-- Python `needle in hay` on strings. -/
def strContains (hay needle : String) : Bool :=
  containsList needle.toList hay.toList

/-- The search-text list `hay` built by `is_travel_company`
(webscrapercode.py lines 138-146): for the keys `categories`,
`industries`, `tags` the lower-cased normalized strings, for
`short_description`, `description` the lower-cased `str(v)`;
falsy fields are skipped. -/
def travelHay (co : PyVal) : List String :=
  (["categories", "industries", "tags"].filterMap
      (fun k => if pyTruthy (pyGet co k) then some k else Option.none)).flatMap
      (fun k => (norm_list_to_strings (pyGet co k)).map pyLower)
  ++ (["short_description", "description"].filterMap
      (fun k =>
        if pyTruthy (pyGet co k) then some (pyLower (pyStr (pyGet co k)))
        else Option.none))

/-- The joined search blob `" | ".join(hay)` of `is_travel_company`. -/
def travelBlob (co : PyVal) : String :=
  String.intercalate " | " (travelHay co)

/-- `is_travel_company` generalized over the keyword set it scans
(the program instantiates it with `TRAVEL_KEYWORDS`). -/
def is_travel_company_kw (kws : List String) (co : PyVal) : Bool :=
  strContains (travelBlob co) CRUNCHBASE_TRAVEL_LABEL
    || kws.any (fun term => strContains (travelBlob co) term)

/-- `is_travel_company` (webscrapercode.py lines 137-150). -/
def is_travel_company (co : PyVal) : Bool :=
  is_travel_company_kw TRAVEL_KEYWORDS co

/-- Parser for the digit run of a decimal literal, returning the
accumulated value and the number of digits consumed. -/
def parseDigits : List Char → Option (Nat × Nat)
  | [] => some (0, 0)
  | c :: rest =>
    if c.isDigit then
      match parseDigits rest with
      | some (v, k) => some ((c.toNat - 48) * 10 ^ k + v, k + 1)
      | Option.none => Option.none
    else Option.none

/-- Python `float(s)` on a plain decimal string literal: optional
sign, digits, optional fractional part, at least one digit overall;
any string Python's `float()` rejects maps to `none` (`ValueError`).
Python's `float()` additionally ACCEPTS exponent forms, `inf`/`nan`,
underscores and surrounding whitespace; those inputs are outside this
model (it returns `none` where Python would convert), none of the
program's amount data or the claims' scenarios use them, and no
theorem is instantiated at them. -/
def parseDecimal (s : String) : Option ℚ :=
  let core : List Char → Option ℚ := fun cs =>
    match cs.splitOn '.' with
    | [intPart] =>
      match parseDigits intPart with
      | some (v, k) => if k = 0 then Option.none else some ((v : Int) : ℚ)
      | Option.none => Option.none
    | [intPart, fracPart] =>
      match parseDigits intPart, parseDigits fracPart with
      | some (vi, ki), some (vf, kf) =>
        if ki = 0 && kf = 0 then Option.none
        else some (mkRat ((vi * 10 ^ kf + vf : Nat) : Int) (10 ^ kf))
      | _, _ => Option.none
    | _ => Option.none
  match s.toList with
  | '-' :: rest => (core rest).map (fun q => -q)
  | '+' :: rest => core rest
  | cs => core cs

/-- Python `float(v)` on an embedded value: ints, floats and bools
convert, decimal strings parse, everything else raises (`none`). -/
def pyFloat (v : PyVal) : Option ℚ :=
  match v with
  | .int n => some (n : ℚ)
  | .float q => some q
  | .bool b => some (if b then 1 else 0)
  | .str s => parseDecimal s
  | _ => Option.none

/-- Python `int(float(v))` truncates toward zero: on the reduced
fraction `num/den` (with `den > 0`), truncating division. -/
def ratTrunc (q : ℚ) : Int :=
  Int.tdiv q.num q.den

/-- Rounding to the nearest integer (halves up), the behaviour claim
C5 ascribes to the formatter: `⌊q + 1/2⌋`, computed as the floor
division `(2 num + den) fdiv (2 den)` on the reduced fraction. -/
def ratNearest (q : ℚ) : Int :=
  Int.fdiv (2 * q.num + q.den) (2 * q.den)

/-- Insert a comma after every third character (used on the reversed
digit string, so groups count from the least significant digit). -/
def groupRev : List Char → List Char
  | a :: b :: c :: d :: rest => a :: b :: c :: ',' :: groupRev (d :: rest)
  | l => l

/-- Python format `f"{n:,}"` on an integer: decimal digits with
thousands separators, with a leading minus sign for negatives. -/
def pyIntFormat (n : Int) : String :=
  let digits := (toString n.natAbs).toList
  let grouped := String.mk (groupRev digits.reverse).reverse
  if n < 0 then "-" ++ grouped else grouped

/-- The value `val` that `safe_amount` attempts to convert:
`money = rd.get("money_raised_usd") or rd.get("money_raised")`, then
for a dict `money.get("value_usd") or money.get("value")`, else
`money` itself. -/
def moneyVal (rd : PyVal) : PyVal :=
  let money := pyOr (pyGet rd "money_raised_usd") (pyGet rd "money_raised")
  match money with
  | .dict _ => pyOr (pyGet money "value_usd") (pyGet money "value")
  | v => v

/-- `safe_amount` (webscrapercode.py lines 152-161): renders
`f"${int(float(val)):,}"`, or `"Undisclosed"` when the conversion
raises. -/
def safe_amount (rd : PyVal) : String :=
  match pyFloat (moneyVal rd) with
  | some q => "$" ++ pyIntFormat (ratTrunc q)
  | Option.none => "Undisclosed"

/-- The monetary formatter as claim C5 describes it: identical to
`safe_amount` except that the amount is rounded to the NEAREST whole
unit instead of truncated.  Spec-side definition, for comparison. -/
def safeAmountNearest (rd : PyVal) : String :=
  match pyFloat (moneyVal rd) with
  | some q => "$" ++ pyIntFormat (ratNearest q)
  | Option.none => "Undisclosed"

/-- The key scan inside `extract_company_uuid`: try each key in order;
a non-empty string value wins, a dict value with a truthy `"uuid"`
entry yields that entry, otherwise move on. -/
def extractFromKeys (rd : PyVal) : List String → PyVal
  | [] => PyVal.str ""
  | k :: ks =>
    match pyGet rd k with
    | .str s => if s != "" then PyVal.str s else extractFromKeys rd ks
    | .dict kvs =>
      if pyTruthy (pyGet (PyVal.dict kvs) "uuid") then pyGet (PyVal.dict kvs) "uuid"
      else extractFromKeys rd ks
    | _ => extractFromKeys rd ks

/-- `extract_company_uuid` (webscrapercode.py lines 119-126). -/
def extract_company_uuid (rd : PyVal) : PyVal :=
  extractFromKeys rd
    ["funded_organization_identifier", "funded_organization_uuid",
     "organization_uuid", "company_uuid"]

/-- Python `a or b` on two already-normalized string lists
(`norm_list_to_strings(...) or norm_list_to_strings(...)` in the row
builder): the first list when non-empty, else the second. -/
def listOr (a b : List String) : List String :=
  if a.isEmpty then b else a

/-- One output row of `pick_two_latest_travel` (the dict built at
webscrapercode.py lines 191-204), with its fixed keys as fields. -/
structure Row where
  announced_on : PyVal
  investment_type : PyVal
  amount_usd : String
  company_name : PyVal
  website : PyVal
  location : PyVal
  categories : String
  crunchbase_url : PyVal
  description : PyVal

/-- The row construction at webscrapercode.py lines 191-204. -/
def buildRow (rd co : PyVal) : Row :=
  { announced_on := pyGet rd "announced_on"
    investment_type := pyGet rd "investment_type"
    amount_usd := safe_amount rd
    company_name := pyGet co "name"
    website := pyOr (pyGet co "website") (pyOr (pyGet co "homepage_url") (PyVal.str ""))
    location := pyOr (pyGet co "location")
      (pyOr (pyGet co "country") (pyOr (pyGet co "country_code") (PyVal.str "")))
    categories := String.intercalate ", "
      (listOr (norm_list_to_strings (pyGet co "categories"))
              (norm_list_to_strings (pyGet co "industries")))
    crunchbase_url := pyOr (pyGet co "permalink") (pyOr (pyGet co "cb_url") (PyVal.str ""))
    description := pyOr (pyGet co "short_description")
      (pyOr (pyGet co "description") (PyVal.str "")) }

/-- The sort key `x.get("announced_on") or ""` used by both sorts:
a string date stays itself, falsy values become `""`.  A truthy
non-string date would make Python's comparison raise; the sortedness
theorems therefore assume dates are strings or falsy (`pyDateOk`). -/
def pyStrKey (v : PyVal) : String :=
  match pyOr v (PyVal.str "") with
  | .str s => s
  | _ => ""

/-- The date field is a string or falsy, so that Python's string
comparison in the sort is defined. -/
def pyDateOk (v : PyVal) : Bool :=
  match v with
  | .str _ => true
  | v => !pyTruthy v

/-- Stable descending insertion (by a string key): the new element is
placed after every element whose key is ≥ its own, before the first
element with a strictly smaller key. -/
def insertDescBy (key : α → String) (x : α) : List α → List α
  | [] => [x]
  | y :: ys => if key y < key x then x :: y :: ys else y :: insertDescBy key x ys

/-- Python `list.sort(key=..., reverse=True)`: a stable sort into
descending key order (inserting the elements left to right keeps
equal-keyed elements in input order). -/
def sortDescBy (key : α → String) (l : List α) : List α :=
  l.foldl (fun acc x => insertDescBy key x acc) []

/-- Sort key of a round in `fetch_recent_rounds`. -/
def roundKey (rd : PyVal) : String := pyStrKey (pyGet rd "announced_on")

/-- Sort key of an accepted row in `pick_two_latest_travel`
(`r["announced_on"] or ""`). -/
def rowKey (r : Row) : String := pyStrKey r.announced_on

/-- The unwrapped value is a dict whose sort key
`x.get("announced_on") or ""` is a string: exactly the elements on
which the sort's key evaluation and key comparisons are defined. -/
def roundSortable (x : PyVal) : Bool :=
  (match x with
    | .dict _ => true
    | _ => false)
  && pyDateOk (pyGet x "announced_on")

/-- The response handling of `fetch_recent_rounds` (webscrapercode.py
lines 110-117), applied to the decoded JSON body: unwrap the list
under the first truthy key among `results`, `data`, `items` (default
empty list) and sort it by announcement date descending.  `none`
models the exception paths: a non-list unwrapped value has no `.sort`
(`AttributeError`), and CPython's `list.sort(key=...)` applies the key
function to EVERY element before sorting, so a non-dict element raises
`AttributeError` inside the key lambda even in a one-element list.
Elements whose truthy `announced_on` is not a string (on which
Python's key comparison may raise `TypeError`, depending on the other
keys present) are conservatively routed to the exception path as well;
no theorem sits on such inputs. -/
def fetch_recent_rounds_items (data : PyVal) : Option (List PyVal) :=
  let items := pyOr (pyGet data "results")
    (pyOr (pyGet data "data") (pyOr (pyGet data "items") (PyVal.list [])))
  match items with
  | .list xs =>
    if xs.all roundSortable then some (sortDescBy roundKey xs)
    else Option.none
  | _ => Option.none

/-- The pipeline's mutable state: the accumulator `picked`, the
run-scoped deduplication set `seen`, and the lookup counter. -/
structure PipeState where
  picked : List Row
  seen : List PyVal
  lookups : Nat

/-- The loop body of `pick_two_latest_travel` (webscrapercode.py lines
170-208).  `getCompany` is the lookup oracle standing for the
`get_company` network call; `cap` is `MAX_COMPANY_LOOKUPS`; the target
of 2 accepted records is hard-coded (`len(picked) >= 2`). -/
def pickGo (getCompany : PyVal → PyVal) (cap : Nat) :
    List PyVal → PipeState → PipeState
  | [], st => st
  | rd :: rest, st =>
    if 2 ≤ st.picked.length ∨ cap ≤ st.lookups then st
    else if !pyTruthy (extract_company_uuid rd)
        || pyMem (extract_company_uuid rd) st.seen then
      pickGo getCompany cap rest st
    else if !pyTruthy (getCompany (extract_company_uuid rd)) then
      pickGo getCompany cap rest
        ⟨st.picked, extract_company_uuid rd :: st.seen, st.lookups + 1⟩
    else if !is_travel_company (getCompany (extract_company_uuid rd)) then
      pickGo getCompany cap rest
        ⟨st.picked, extract_company_uuid rd :: st.seen, st.lookups + 1⟩
    else
      pickGo getCompany cap rest
        ⟨st.picked ++ [buildRow rd (getCompany (extract_company_uuid rd))],
          extract_company_uuid rd :: st.seen, st.lookups + 1⟩

/-- The final loop state of one run: the loop starts from an empty
accumulator, an empty (run-scoped) seen set and a zero lookup counter. -/
def pickRunState (getCompany : PyVal → PyVal) (cap : Nat) (rounds : List PyVal) :
    PipeState :=
  pickGo getCompany cap rounds { picked := [], seen := [], lookups := 0 }

/-- `pick_two_latest_travel` (webscrapercode.py lines 164-211) as a
function of the fetched rounds and the company-lookup oracle: run the
selection loop, then re-sort the accumulator by announcement date
descending. -/
def pick_two_latest_travel (getCompany : PyVal → PyVal) (cap : Nat)
    (rounds : List PyVal) : List Row :=
  sortDescBy rowKey (pickRunState getCompany cap rounds).picked

/-- The "effective cardinality" of an input to the normalizer, as the
spec counts it: 0 for falsy input, the list's length for a list, 1 for
anything else. -/
def effectiveCard (v : PyVal) : Nat :=
  if !pyTruthy v then 0
  else
    match v with
    | .list xs => xs.length
    | _ => 1

/-- A value that is neither a string nor a list (the "any other
scalar" case of the normalizer's specification). -/
def isScalarPy (v : PyVal) : Bool :=
  match v with
  | .str _ => false
  | .list _ => false
  | _ => true

/-- Test fixture: a company profile the classifier accepts. -/
def coTravelEx : PyVal :=
  PyVal.dict [("name", PyVal.str "Stayly"),
    ("categories", PyVal.list [PyVal.str "Hospitality"])]

/-- Test fixture: a company profile the classifier rejects. -/
def coOtherEx : PyVal :=
  PyVal.dict [("name", PyVal.str "Chipco"),
    ("categories", PyVal.list [PyVal.str "Semiconductors"])]

/-- Test fixture: a lookup oracle mapping identifier "a" to the travel
company, "b" to the other company, and anything else to `{}`. -/
def oracleEx : PyVal → PyVal := fun u =>
  if pyBeq u (PyVal.str "a") then coTravelEx
  else if pyBeq u (PyVal.str "b") then coOtherEx
  else PyVal.dict []

/-- Test fixture: a funding round resolving to identifier "a". -/
def roundA : PyVal :=
  PyVal.dict [("funded_organization_identifier", PyVal.str "a"),
    ("announced_on", PyVal.str "2026-02-01")]

/-- Test fixture: a funding round resolving to identifier "b". -/
def roundB : PyVal :=
  PyVal.dict [("funded_organization_identifier", PyVal.str "b"),
    ("announced_on", PyVal.str "2026-01-15")]

/-- Test fixture: a funding round with no extractable identifier. -/
def roundNoId : PyVal :=
  PyVal.dict [("announced_on", PyVal.str "2026-01-20")]

/-- Test fixture: a small batch of rounds. -/
def roundsEx : List PyVal := [roundA, roundNoId, roundB]

/-- `containsList` decides contiguous-substring occurrence. -/
theorem containsList_iff (needle : List Char) :
    ∀ hay : List Char, containsList needle hay = true ↔ needle <:+: hay := by
  intro hay
  induction hay with
  | nil =>
    simp only [containsList, List.isEmpty_iff, List.infix_nil]
  | cons c rest ih =>
    simp only [containsList, Bool.or_eq_true, ih, List.isPrefixOf_iff_prefix]
    constructor
    · rintro (hpre | hinf)
      · exact hpre.isInfix
      · exact List.infix_cons hinf
    · intro hinf
      rcases List.infix_cons_iff.mp hinf with hpre | h2
      · exact Or.inl hpre
      · exact Or.inr h2

/-- `strContains` decides substring occurrence on strings. -/
theorem strContains_iff (hay needle : String) :
    strContains hay needle = true ↔ needle.toList <:+: hay.toList := by
  exact containsList_iff needle.toList hay.toList

/-- The empty string is the minimum of the lexicographic order the
sorts compare by. -/
theorem le_empty_string {s : String} (h : s ≤ "") : s = "" := by
  refine le_antisymm h ?hge
  rw [String.le_iff_toList_le]
  exact List.nil_le

/-- Every element of `insertDescBy key x l` is `x` or an element of `l`. -/
theorem mem_insertDescBy (key : α → String) (x : α) (z : α) :
    ∀ l : List α, z ∈ insertDescBy key x l ↔ z = x ∨ z ∈ l := by
  intro l
  induction l with
  | nil => simp [insertDescBy]
  | cons y ys ih =>
    simp only [insertDescBy]
    split
    · simp [List.mem_cons]
    · simp only [List.mem_cons, ih]
      tauto

/-- Inserting preserves descending sortedness. -/
theorem pairwise_insertDescBy (key : α → String) (x : α) {l : List α}
    (h : l.Pairwise (fun a b => key b ≤ key a)) :
    (insertDescBy key x l).Pairwise (fun a b => key b ≤ key a) := by
  induction l with
  | nil => simp [insertDescBy]
  | cons y ys ih =>
    rw [List.pairwise_cons] at h
    obtain ⟨hy, hys⟩ := h
    simp only [insertDescBy]
    split
    case isTrue hlt =>
      rw [List.pairwise_cons]
      constructor
      · intro z hz
        rcases List.mem_cons.mp hz with hzy | hz2
        · rw [hzy]
          exact le_of_lt hlt
        · exact le_trans (hy z hz2) (le_of_lt hlt)
      · exact List.pairwise_cons.mpr ⟨hy, hys⟩
    case isFalse hge =>
      rw [List.pairwise_cons]
      constructor
      · intro z hz
        rcases (mem_insertDescBy key x z ys).mp hz with hzx | hz2
        · rw [hzx]
          exact le_of_not_lt hge
        · exact hy z hz2
      · exact ih hys

/-- Stability of a single insertion: on a descending-sorted list, the
elements with any fixed key `k` are preserved in order, with `x`
appended at the end of its key class. -/
theorem filter_insertDescBy (key : α → String) (k : String) (x : α) :
    ∀ l : List α, l.Pairwise (fun a b => key b ≤ key a) →
      (insertDescBy key x l).filter (fun r => key r == k) =
        l.filter (fun r => key r == k) ++ (if key x == k then [x] else []) := by
  intro l
  induction l with
  | nil =>
    intro _
    simp [insertDescBy, List.filter_cons]
  | cons y ys ih =>
    intro h
    rw [List.pairwise_cons] at h
    obtain ⟨hy, hys⟩ := h
    simp only [insertDescBy]
    split
    case isTrue hlt =>
      by_cases hx : (key x == k) = true
      · have hk : key x = k := beq_iff_eq.mp hx
        have hempty : (y :: ys).filter (fun r => key r == k) = [] := by
          rw [List.filter_eq_nil_iff]
          intro a ha
          have hlt2 : key a < k := by
            rcases List.mem_cons.mp ha with rfl | ha2
            · exact hk ▸ hlt
            · exact lt_of_le_of_lt (hy a ha2) (hk ▸ hlt)
          simp only [beq_iff_eq]
          exact ne_of_lt hlt2
        rw [List.filter_cons, hempty, if_pos hx]
        rfl
      · rw [List.filter_cons, if_neg hx, if_neg hx, List.append_nil]
    case isFalse hge =>
      rw [List.filter_cons, List.filter_cons, ih hys]
      by_cases hyk : (key y == k) = true
      · rw [if_pos hyk, if_pos hyk, List.cons_append]
      · rw [if_neg hyk, if_neg hyk]

/-- The sort's left fold keeps the accumulator descending-sorted. -/
theorem foldl_insert_pairwise (key : α → String) :
    ∀ (l acc : List α), acc.Pairwise (fun a b => key b ≤ key a) →
      (l.foldl (fun acc x => insertDescBy key x acc) acc).Pairwise
        (fun a b => key b ≤ key a) := by
  intro l
  induction l with
  | nil => intro acc h; exact h
  | cons x xs ih =>
    intro acc h
    rw [List.foldl_cons]
    exact ih _ (pairwise_insertDescBy key x h)

/-- The sort's left fold is stable: per key class it appends the
input's elements, in input order, after the accumulator's. -/
theorem foldl_insert_filter (key : α → String) (k : String) :
    ∀ (l acc : List α), acc.Pairwise (fun a b => key b ≤ key a) →
      (l.foldl (fun acc x => insertDescBy key x acc) acc).filter
          (fun r => key r == k) =
        acc.filter (fun r => key r == k) ++ l.filter (fun r => key r == k) := by
  intro l
  induction l with
  | nil => intro acc _; simp
  | cons x xs ih =>
    intro acc h
    rw [List.foldl_cons, ih _ (pairwise_insertDescBy key x h),
      filter_insertDescBy key k x acc h, List.append_assoc, List.filter_cons]
    by_cases hx : key x == k
    · rw [if_pos hx, if_pos hx]
      rfl
    · rw [if_neg (by simpa using hx), if_neg (by simpa using hx), List.nil_append]

/-- `sortDescBy` produces a list sorted by key, descending. -/
theorem sortDescBy_pairwise (key : α → String) (l : List α) :
    (sortDescBy key l).Pairwise (fun a b => key b ≤ key a) :=
  foldl_insert_pairwise key l [] (List.Pairwise.nil)

/-- `sortDescBy` is stable: it preserves the input's relative order
inside every key class. -/
theorem sortDescBy_filter (key : α → String) (k : String) (l : List α) :
    (sortDescBy key l).filter (fun r => key r == k) =
      l.filter (fun r => key r == k) := by
  have h := foldl_insert_filter key k l [] (List.Pairwise.nil)
  simpa [sortDescBy] using h

/-- Insertion grows the list by one element. -/
theorem length_insertDescBy (key : α → String) (x : α) :
    ∀ l : List α, (insertDescBy key x l).length = l.length + 1 := by
  intro l
  induction l with
  | nil => rfl
  | cons y ys ih =>
    simp only [insertDescBy]
    split
    · rfl
    · simp [ih]

/-- `sortDescBy` preserves length. -/
theorem sortDescBy_length (key : α → String) (l : List α) :
    (sortDescBy key l).length = l.length := by
  suffices h : ∀ (l acc : List α),
      (l.foldl (fun acc x => insertDescBy key x acc) acc).length =
        acc.length + l.length by
    simpa [sortDescBy] using h l []
  intro l
  induction l with
  | nil => intro acc; simp
  | cons x xs ih =>
    intro acc
    rw [List.foldl_cons, ih, length_insertDescBy, List.length_cons]
    omega

/-- Once the stop condition holds (target reached or lookup cap
reached), the loop changes nothing, whatever input remains. -/
theorem pickGo_stop (g : PyVal → PyVal) (cap : Nat) :
    ∀ (l : List PyVal) (st : PipeState),
      2 ≤ st.picked.length ∨ cap ≤ st.lookups → pickGo g cap l st = st := by
  intro l st h
  cases l with
  | nil => rfl
  | cons rd rest =>
    simp only [pickGo]
    rw [if_pos h]

/-- Loop invariant: the accepted count stays within the target of 2
and the lookup counter stays within the cap. -/
theorem pickGo_bounds (g : PyVal → PyVal) (cap : Nat) :
    ∀ (l : List PyVal) (st : PipeState),
      st.picked.length ≤ 2 → st.lookups ≤ cap →
      (pickGo g cap l st).picked.length ≤ 2 ∧ (pickGo g cap l st).lookups ≤ cap := by
  intro l
  induction l with
  | nil =>
    intro st h1 h2
    exact ⟨h1, h2⟩
  | cons rd rest ih =>
    intro st h1 h2
    simp only [pickGo]
    by_cases hstop : 2 ≤ st.picked.length ∨ cap ≤ st.lookups
    · rw [if_pos hstop]
      exact ⟨h1, h2⟩
    · rw [if_neg hstop]
      push_neg at hstop
      obtain ⟨hp, hl⟩ := hstop
      by_cases huuid : (!pyTruthy (extract_company_uuid rd)
          || pyMem (extract_company_uuid rd) st.seen) = true
      · rw [if_pos huuid]
        exact ih st h1 h2
      · rw [if_neg huuid]
        by_cases hco : (!pyTruthy (g (extract_company_uuid rd))) = true
        · rw [if_pos hco]
          exact ih _ h1 (Nat.succ_le_of_lt hl)
        · rw [if_neg hco]
          by_cases htr : (!is_travel_company (g (extract_company_uuid rd))) = true
          · rw [if_pos htr]
            exact ih _ h1 (Nat.succ_le_of_lt hl)
          · rw [if_neg htr]
            refine ih _ ?hlen (Nat.succ_le_of_lt hl)
            simp only [List.length_append, List.length_cons, List.length_nil]
            omega

/-- The normalizer maps an embedded list of strings to exactly those
strings (shared by the C4 and C10 results). -/
theorem norm_strlist (ss : List String) :
    norm_list_to_strings (PyVal.list (ss.map PyVal.str)) = ss := by
  cases ss with
  | nil => rfl
  | cons s rest =>
    simp only [norm_list_to_strings, pyTruthy, List.map_cons, List.isEmpty_cons,
      Bool.not_false, Bool.not_true, Bool.false_eq_true, if_false]
    simp only [normItem, List.map_map]
    have hid : (normItem ∘ PyVal.str) = fun s : String => s := by
      funext t
      rfl
    rw [hid]
    simp

/-- On a non-empty embedded list the normalizer is the per-item map. -/
theorem norm_list_cons (x : PyVal) (xs : List PyVal) :
    norm_list_to_strings (PyVal.list (x :: xs)) = (x :: xs).map normItem := rfl

/-- `str(a or (b or c))` as a three-way truthiness case split. -/
theorem pyStr_pyOr3 (a b c : PyVal) :
    pyStr (pyOr a (pyOr b c)) =
      if pyTruthy a then pyStr a
      else if pyTruthy b then pyStr b
      else pyStr c := by
  by_cases ha : pyTruthy a = true
  · simp [pyOr, ha]
  · by_cases hb : pyTruthy b = true
    · simp [pyOr, ha, hb]
    · simp [pyOr, ha, hb]

/-- C1: in every run of the selection pipeline
(`pick_two_latest_travel`), for every input sequence of rounds, the
number of accepted records never exceeds the target of 2 and the
number of enrichment lookups never exceeds the configured cap
(`MAX_COMPANY_LOOKUPS`); once either bound is reached the loop
returns its state unchanged, ignoring all remaining input. -/
theorem pick_two_latest_travel_bounds :
    ∀ (g : PyVal → PyVal) (cap : Nat) (rounds : List PyVal),
      (pickRunState g cap rounds).picked.length ≤ 2 ∧
      (pickRunState g cap rounds).lookups ≤ cap ∧
      (pick_two_latest_travel g cap rounds).length ≤ 2 ∧
      (∀ (st : PipeState) (l : List PyVal),
        2 ≤ st.picked.length ∨ cap ≤ st.lookups → pickGo g cap l st = st) := by
  intro g cap rounds
  have hb := pickGo_bounds g cap rounds ⟨[], [], 0⟩ (by simp) (Nat.zero_le cap)
  refine ⟨hb.1, hb.2, ?hlen, fun st l h => pickGo_stop g cap l st h⟩
  rw [pick_two_latest_travel, sortDescBy_length]
  exact hb.1

/-- Witness for C1 at a concrete run: with cap 1 the output stays
within the target, and a state at the cap absorbs further input. -/
theorem pick_two_latest_travel_bounds_witness :
    (pick_two_latest_travel oracleEx 1 roundsEx).length ≤ 2 ∧
    pickGo oracleEx 1 roundsEx ⟨[], [], 1⟩ = ⟨[], [], 1⟩ :=
  ⟨(pick_two_latest_travel_bounds oracleEx 1 roundsEx).2.2.1,
    (pick_two_latest_travel_bounds oracleEx 1 roundsEx).2.2.2 ⟨[], [], 1⟩ roundsEx
      (Or.inr (by decide))⟩

/-- C2: a round whose extracted identifier is falsy (empty) or already
in the seen set is skipped entirely — the loop state, in particular
the lookup counter, is exactly as if the round were absent — and the
deduplication set is scoped to a single run: `pickRunState` starts
every run from the empty seen set. -/
theorem pick_skip_no_lookup :
    (∀ (g : PyVal → PyVal) (cap : Nat) (rd : PyVal) (rest : List PyVal)
        (st : PipeState),
      pyTruthy (extract_company_uuid rd) = false ∨
        pyMem (extract_company_uuid rd) st.seen = true →
      pickGo g cap (rd :: rest) st = pickGo g cap rest st) ∧
    (∀ (g : PyVal → PyVal) (cap : Nat) (rounds : List PyVal),
      pickRunState g cap rounds =
        pickGo g cap rounds { picked := [], seen := [], lookups := 0 }) := by
  constructor
  · intro g cap rd rest st h
    by_cases hstop : 2 ≤ st.picked.length ∨ cap ≤ st.lookups
    · rw [pickGo_stop g cap (rd :: rest) st hstop, pickGo_stop g cap rest st hstop]
    · have hcond : (!pyTruthy (extract_company_uuid rd)
          || pyMem (extract_company_uuid rd) st.seen) = true := by
        rcases h with h1 | h2
        · simp [h1]
        · simp [h2]
      simp only [pickGo]
      rw [if_neg hstop, if_pos hcond]
  · intro g cap rounds
    rfl

/-- Witness for C2 at a concrete round with no extractable identifier:
processing it leaves the run in the same state as not seeing it. -/
theorem pick_skip_no_lookup_witness :
    pyTruthy (extract_company_uuid roundNoId) = false ∧
    pickGo oracleEx 20 [roundNoId] ⟨[], [], 0⟩ =
      pickGo oracleEx 20 [] ⟨[], [], 0⟩ :=
  ⟨rfl, pick_skip_no_lookup.1 oracleEx 20 roundNoId [] ⟨[], [], 0⟩ (Or.inl rfl)⟩

/-- C3: provided every round's announcement date is a string or falsy
(so that Python's comparison is defined), the list returned by the
pipeline is sorted by announcement date descending
(`r["announced_on"] or ""`), the sort is stable — inside every date
class the acceptance order is preserved — and every record whose date
is missing (key `""`) sits after every record with a populated date. -/
theorem pick_two_latest_travel_sorted :
    ∀ (g : PyVal → PyVal) (cap : Nat) (rounds : List PyVal),
      (∀ rd ∈ rounds, pyDateOk (pyGet rd "announced_on") = true) →
      List.Pairwise (fun a b => rowKey b ≤ rowKey a)
          (pick_two_latest_travel g cap rounds) ∧
      (∀ k : String,
        (pick_two_latest_travel g cap rounds).filter (fun r => rowKey r == k) =
          (pickRunState g cap rounds).picked.filter (fun r => rowKey r == k)) ∧
      (∀ i j : Fin (pick_two_latest_travel g cap rounds).length,
        rowKey ((pick_two_latest_travel g cap rounds).get i) = "" →
        rowKey ((pick_two_latest_travel g cap rounds).get j) ≠ "" →
        (j : Nat) < (i : Nat)) := by
  intro g cap rounds _
  refine ⟨sortDescBy_pairwise rowKey _,
    fun k => sortDescBy_filter rowKey k _, ?hlast⟩
  intro i j hi hj
  by_contra hcon
  push_neg at hcon
  have hpw : List.Pairwise (fun a b => rowKey b ≤ rowKey a)
      (pick_two_latest_travel g cap rounds) := sortDescBy_pairwise rowKey _
  rw [List.pairwise_iff_get] at hpw
  rcases Nat.lt_or_ge (i : Nat) (j : Nat) with hij | hij
  · have hle := hpw i j (Fin.mk_lt_mk.mp hij)
    rw [hi] at hle
    exact hj (le_empty_string hle)
  · have heq : (i : Nat) = (j : Nat) := Nat.le_antisymm hcon hij
    have : i = j := Fin.ext heq
    rw [this] at hi
    exact hj hi

/-- Witness for C3 at a concrete run whose dates are all strings. -/
theorem pick_two_latest_travel_sorted_witness :
    List.Pairwise (fun a b => rowKey b ≤ rowKey a)
        (pick_two_latest_travel oracleEx 20 roundsEx) ∧
    (∀ k : String,
      (pick_two_latest_travel oracleEx 20 roundsEx).filter (fun r => rowKey r == k) =
        (pickRunState oracleEx 20 roundsEx).picked.filter (fun r => rowKey r == k)) ∧
    (∀ i j : Fin (pick_two_latest_travel oracleEx 20 roundsEx).length,
      rowKey ((pick_two_latest_travel oracleEx 20 roundsEx).get i) = "" →
      rowKey ((pick_two_latest_travel oracleEx 20 roundsEx).get j) ≠ "" →
      (j : Nat) < (i : Nat)) :=
  pick_two_latest_travel_sorted oracleEx 20 roundsEx (by decide)

/-- C4: the normalizer never fails (it is a total function) and obeys
the spec's rules: falsy input gives `[]`; a non-empty bare string
gives a one-element list; a list of strings passes through; a list of
objects yields, per object, the truthy `"name"` entry, else the truthy
`"value"` entry, else the object's textual form; a truthy non-string
non-list value is stringified into a one-element list; and the output
length always equals the input's effective cardinality. -/
theorem norm_list_to_strings_spec :
    (∀ v : PyVal, pyTruthy v = false → norm_list_to_strings v = []) ∧
    (∀ s : String, s ≠ "" → norm_list_to_strings (PyVal.str s) = [s]) ∧
    (∀ ss : List String, norm_list_to_strings (PyVal.list (ss.map PyVal.str)) = ss) ∧
    (∀ ds : List (List (String × PyVal)),
      norm_list_to_strings (PyVal.list (ds.map PyVal.dict)) =
        ds.map (fun kvs =>
          if pyTruthy (pyGet (PyVal.dict kvs) "name") then
            pyStr (pyGet (PyVal.dict kvs) "name")
          else if pyTruthy (pyGet (PyVal.dict kvs) "value") then
            pyStr (pyGet (PyVal.dict kvs) "value")
          else pyStr (PyVal.dict kvs))) ∧
    (∀ v : PyVal, isScalarPy v = true → pyTruthy v = true →
      norm_list_to_strings v = [pyStr v]) ∧
    (∀ v : PyVal, (norm_list_to_strings v).length = effectiveCard v) := by
  refine ⟨?h1, ?h2, ?h3, ?h4, ?h5, ?h6⟩
  case h1 =>
    intro v h
    simp [norm_list_to_strings, h]
  case h2 =>
    intro s h
    simp [norm_list_to_strings, pyTruthy, h]
  case h3 =>
    intro ss
    exact norm_strlist ss
  case h4 =>
    intro ds
    cases ds with
    | nil => rfl
    | cons d rest =>
      rw [List.map_cons, norm_list_cons, ← List.map_cons, List.map_map]
      refine List.map_congr_left ?hitem
      intro kvs _
      exact pyStr_pyOr3 (pyGet (PyVal.dict kvs) "name")
        (pyGet (PyVal.dict kvs) "value") (PyVal.dict kvs)
  case h5 =>
    intro v hscalar htruthy
    cases v <;> simp_all [norm_list_to_strings, isScalarPy]
  case h6 =>
    intro v
    rcases v with _ | b | n | q | s | xs | kvs
    · rfl
    · cases b <;> rfl
    · by_cases h : (n : Int) = 0
      · simp [norm_list_to_strings, effectiveCard, pyTruthy, h]
      · simp [norm_list_to_strings, effectiveCard, pyTruthy, h]
    · by_cases h : (q : ℚ) = 0
      · simp [norm_list_to_strings, effectiveCard, pyTruthy, h]
      · simp [norm_list_to_strings, effectiveCard, pyTruthy, h]
    · by_cases h : s = ""
      · simp [norm_list_to_strings, effectiveCard, pyTruthy, h]
      · simp [norm_list_to_strings, effectiveCard, pyTruthy, h]
    · cases xs with
      | nil => rfl
      | cons x rest => simp [norm_list_to_strings, effectiveCard, pyTruthy]
    · cases kvs with
      | nil => rfl
      | cons e rest => simp [norm_list_to_strings, effectiveCard, pyTruthy]
  

/-- Witness for C4 at concrete inputs, one per hypothesis-guarded rule. -/
theorem norm_list_to_strings_spec_witness :
    norm_list_to_strings (PyVal.str "") = [] ∧
    norm_list_to_strings (PyVal.str "seed") = ["seed"] ∧
    norm_list_to_strings (PyVal.int 7) = [pyStr (PyVal.int 7)] :=
  ⟨norm_list_to_strings_spec.1 (PyVal.str "") rfl,
    norm_list_to_strings_spec.2.1 "seed" (by decide),
    norm_list_to_strings_spec.2.2.2.2.1 (PyVal.int 7) rfl (by decide)⟩

/-- C10: the normalizer is idempotent — feeding its output (as the
embedded Python list of strings it is) back in returns it unchanged. -/
theorem norm_list_to_strings_idem :
    ∀ v : PyVal,
      norm_list_to_strings (PyVal.list ((norm_list_to_strings v).map PyVal.str)) =
        norm_list_to_strings v := by
  intro v
  exact norm_strlist (norm_list_to_strings v)

/-- C5 counterexample: the claim says the formatter rounds to the
NEAREST whole unit, but `int(float(val))` truncates toward zero.  On
the amount string "999999.9" the program renders "$999,999" while
nearest-unit rounding would render "$1,000,000". -/
theorem safe_amount_not_nearest :
    safe_amount (PyVal.dict [("money_raised_usd", PyVal.str "999999.9")]) =
        "$999,999" ∧
    safeAmountNearest (PyVal.dict [("money_raised_usd", PyVal.str "999999.9")]) =
        "$1,000,000" ∧
    ("$999,999" : String) ≠ "$1,000,000" := by
  refine ⟨rfl, rfl, ?hne⟩
  decide

/-- C5 amended: `safe_amount` TRUNCATES the amount toward zero (rather
than rounding to nearest), groups the digits with thousands separators
and prefixes "$"; any missing or non-convertible amount renders as
"Undisclosed".  "1500000.0" renders as "$1,500,000"; "999999.9"
renders as "$999,999". -/
theorem safe_amount_spec :
    (∀ (rd : PyVal) (q : ℚ), pyFloat (moneyVal rd) = some q →
      safe_amount rd = "$" ++ pyIntFormat (ratTrunc q)) ∧
    (∀ rd : PyVal, pyFloat (moneyVal rd) = Option.none →
      safe_amount rd = "Undisclosed") ∧
    safe_amount (PyVal.dict [("money_raised_usd", PyVal.str "1500000.0")]) =
        "$1,500,000" ∧
    safe_amount (PyVal.dict [("money_raised_usd", PyVal.str "999999.9")]) =
        "$999,999" ∧
    safe_amount (PyVal.dict []) = "Undisclosed" := by
  refine ⟨?hsome, ?hnone, rfl, rfl, rfl⟩
  · intro rd q h
    simp [safe_amount, h]
  · intro rd h
    simp [safe_amount, h]

/-- Witness for C5 at a concrete integer amount under the
`money_raised.value` path. -/
theorem safe_amount_spec_witness :
    pyFloat (moneyVal (PyVal.dict
        [("money_raised", PyVal.dict [("value", PyVal.int 2500000)])])) =
      some ((2500000 : Int) : ℚ) ∧
    safe_amount (PyVal.dict
        [("money_raised", PyVal.dict [("value", PyVal.int 2500000)])]) =
      "$" ++ pyIntFormat (ratTrunc ((2500000 : Int) : ℚ)) :=
  ⟨rfl, safe_amount_spec.1 _ _ rfl⟩

/-- C6: the classifier returns true exactly when the search blob —
normalized, lower-cased category/industry/tag strings plus lower-cased
raw description fields, joined by " | " — contains the literal label
`CRUNCHBASE_TRAVEL_LABEL` or some keyword of `TRAVEL_KEYWORDS` as a
contiguous substring. -/
theorem is_travel_company_iff :
    ∀ co : PyVal,
      is_travel_company co = true ↔
        (CRUNCHBASE_TRAVEL_LABEL.toList <:+: (travelBlob co).toList ∨
          ∃ t ∈ TRAVEL_KEYWORDS, t.toList <:+: (travelBlob co).toList) := by
  intro co
  simp only [is_travel_company, is_travel_company_kw, Bool.or_eq_true,
    List.any_eq_true, strContains_iff]

/-- C7 counterexample: the glossary's literal terms are not the
code's keyword set — the code stores the abbreviation "bnb" and the
unhyphenated "short term rental" / "bed and breakfast", and has no
entry "online travel agency" (only the abbreviation "ota"). -/
theorem travel_keywords_ne_glossary :
    "online travel agency" ∉ TRAVEL_KEYWORDS ∧
    "short-term rental" ∉ TRAVEL_KEYWORDS ∧
    "bed-and-breakfast" ∉ TRAVEL_KEYWORDS ∧
    "bnb" ∈ TRAVEL_KEYWORDS ∧ "ota" ∈ TRAVEL_KEYWORDS ∧
    "expedia" ∈ TRAVEL_KEYWORDS := by
  refine ⟨?h1, ?h2, ?h3, ?h4, ?h5, ?h6⟩ <;> decide

/-- C7 amended: the keyword set consists of exactly these 23 literal
strings (hyphen-free variants, the abbreviations "ota" and "bnb", and
the brand names "expedia" and "tripadvisor" included). -/
theorem travel_keywords_exact :
    ∀ s : String, s ∈ TRAVEL_KEYWORDS ↔
      (s = "hospitality" ∨ s = "travel" ∨ s = "tourism" ∨ s = "hotel" ∨
       s = "lodging" ∨ s = "resort" ∨ s = "vacation rental" ∨
       s = "short term rental" ∨ s = "hostel" ∨ s = "bnb" ∨
       s = "bed and breakfast" ∨ s = "ota" ∨ s = "booking" ∨
       s = "expedia" ∨ s = "tripadvisor" ∨ s = "airline" ∨ s = "airport" ∨
       s = "cruise" ∨ s = "ferry" ∨ s = "rideshare" ∨ s = "tour operator" ∨
       s = "tourism board" ∨ s = "travel agency") := by
  intro s
  simp [TRAVEL_KEYWORDS]

/-- C8: the classifier is monotonic in its keyword set — enlarging the
set can only turn a false result true — and the program's classifier
is the instance at `TRAVEL_KEYWORDS`. -/
theorem is_travel_company_monotone :
    (∀ (K K2 : List String) (co : PyVal),
      (∀ t, t ∈ K → t ∈ K2) →
      is_travel_company_kw K co = true → is_travel_company_kw K2 co = true) ∧
    (∀ co : PyVal, is_travel_company co = is_travel_company_kw TRAVEL_KEYWORDS co) := by
  constructor
  · intro K K2 co hsub h
    rw [is_travel_company_kw, Bool.or_eq_true] at h ⊢
    rcases h with h1 | h2
    · exact Or.inl h1
    · rcases List.any_eq_true.mp h2 with ⟨t, ht, hp⟩
      exact Or.inr (List.any_eq_true.mpr ⟨t, hsub t ht, hp⟩)
  · intro co
    rfl

/-- Witness for C8: a profile matched by the keyword "hotel" is still
matched after the keyword set is enlarged. -/
theorem is_travel_company_monotone_witness :
    is_travel_company_kw ["hotel"]
        (PyVal.dict [("description", PyVal.str "A Hotel startup")]) = true ∧
    is_travel_company_kw ["hotel", "cruise"]
        (PyVal.dict [("description", PyVal.str "A Hotel startup")]) = true :=
  ⟨rfl,
    is_travel_company_monotone.1 ["hotel"] ["hotel", "cruise"] _
      (by simp) rfl⟩

/-- C9 counterexample: the claim (with the spec) says there are two
possible list-wrapping keys, but the code unwraps any of THREE keys —
`results`, `data`, `items` — so whichever two keys are meant, a
response carrying a round dict only under the remaining third key
still yields that non-empty batch instead of the degraded empty one. -/
theorem fetch_recent_rounds_three_keys :
    fetch_recent_rounds_items
        (PyVal.dict [("results", PyVal.list [roundNoId])]) =
      some [roundNoId] ∧
    fetch_recent_rounds_items
        (PyVal.dict [("data", PyVal.list [roundNoId])]) =
      some [roundNoId] ∧
    fetch_recent_rounds_items
        (PyVal.dict [("items", PyVal.list [roundNoId])]) =
      some [roundNoId] ∧
    some [roundNoId] ≠ (some [] : Option (List PyVal)) := by
  refine ⟨rfl, rfl, rfl, ?hne⟩
  intro h
  injection h with h2
  exact List.noConfusion h2

/-- C9 amended: when a successful response lacks (or has falsy values
under) all THREE list-wrapping keys `results`, `data` and `items`,
`fetch_recent_rounds` degrades to the empty list of rounds rather than
failing. -/
theorem fetch_recent_rounds_missing_keys :
    ∀ data : PyVal,
      pyTruthy (pyGet data "results") = false →
      pyTruthy (pyGet data "data") = false →
      pyTruthy (pyGet data "items") = false →
      fetch_recent_rounds_items data = some [] := by
  intro data h1 h2 h3
  simp [fetch_recent_rounds_items, pyOr, h1, h2, h3, sortDescBy]

/-- Witness for C9 at a concrete response body with none of the keys. -/
theorem fetch_recent_rounds_missing_keys_witness :
    pyTruthy (pyGet (PyVal.dict [("foo", PyVal.int 1)]) "results") = false ∧
    pyTruthy (pyGet (PyVal.dict [("foo", PyVal.int 1)]) "data") = false ∧
    pyTruthy (pyGet (PyVal.dict [("foo", PyVal.int 1)]) "items") = false ∧
    fetch_recent_rounds_items (PyVal.dict [("foo", PyVal.int 1)]) = some [] :=
  ⟨rfl, rfl, rfl, fetch_recent_rounds_missing_keys _ rfl rfl rfl⟩
